import Mathlib

/-!
Verification model of the client-side wallet-session logic of
`blockchain-fundamentals` (frontend/src/components/UserWallet.tsx and the
alternate App sketch).

The component reads and writes the durable slot `localStorage['wallet']`
through the browser's `JSON.parse` / `JSON.stringify`, and parses the
creation endpoint's response body with `response.json()`.  We therefore
embed a JSON value type together with an executable serializer and parser
mirroring the JS semantics the code relies on.  JSON numbers are modelled
as integers (the repository only ever produces and displays integral
balances; floating point is out of scope).
-/

/-- JSON values as produced by `JSON.parse`. -/
inductive Json where
  | null
  | bool (b : Bool)
  | num (n : Int)
  | str (s : String)
  | arr (elems : List Json)
  | obj (members : List (String × Json))

/-- The `\x7b` character, written via its code point. -/
def lbrace : Char := Char.ofNat 123

/-- The `\x7d` character, written via its code point. -/
def rbrace : Char := Char.ofNat 125

/-- Lower-case hex digit for `n < 16`, as used by `JSON.stringify`. -/
def hexDigitChar (n : Nat) : Char :=
  if n < 10 then Char.ofNat (48 + n) else Char.ofNat (87 + n)

/-- How `JSON.stringify` serializes one character of a string. -/
def escapeChar (c : Char) : List Char :=
  if c = '"' then ['\\', '"']
  else if c = '\\' then ['\\', '\\']
  else if c = Char.ofNat 8 then ['\\', 'b']
  else if c = Char.ofNat 9 then ['\\', 't']
  else if c = Char.ofNat 10 then ['\\', 'n']
  else if c = Char.ofNat 12 then ['\\', 'f']
  else if c = Char.ofNat 13 then ['\\', 'r']
  else if c.toNat < 32 then
    ['\\', 'u', '0', '0', hexDigitChar (c.toNat / 16), hexDigitChar (c.toNat % 16)]
  else [c]

/-- Escape every character of a string body. -/
def escapeChars : List Char → List Char
  | [] => []
  | c :: cs => escapeChar c ++ escapeChars cs

/-- A JSON string literal: quote, escaped body, quote. -/
def strLit (s : String) : List Char := '"' :: (escapeChars s.data ++ ['"'])

/-- Decimal digit character for `n < 10`. -/
def digitChar (n : Nat) : Char := Char.ofNat (48 + n)

/-- Decimal digits of a natural number, most significant first. -/
def natChars (n : Nat) : List Char :=
  if n < 10 then [digitChar n]
  else natChars (n / 10) ++ [digitChar (n % 10)]
termination_by n
decreasing_by exact Nat.div_lt_self (by omega) (by omega)

/-- Decimal representation of an integer, as `JSON.stringify` prints it. -/
def intChars (n : Int) : List Char :=
  if n < 0 then '-' :: natChars n.natAbs else natChars n.natAbs

mutual

/-- Characters of the `JSON.stringify` serialization of a value. -/
def stringifyChars : Json → List Char
  | .null => "null".data
  | .bool true => "true".data
  | .bool false => "false".data
  | .num n => intChars n
  | .str s => strLit s
  | .arr xs => '[' :: (stringifyElems xs ++ [']'])
  | .obj ms => lbrace :: (stringifyMembers ms ++ [rbrace])

/-- Comma-separated serialization of array elements. -/
def stringifyElems : List Json → List Char
  | [] => []
  | [x] => stringifyChars x
  | x :: y :: xs => stringifyChars x ++ ',' :: stringifyElems (y :: xs)

/-- Comma-separated serialization of object members. -/
def stringifyMembers : List (String × Json) → List Char
  | [] => []
  | [(k, v)] => strLit k ++ ':' :: stringifyChars v
  | (k, v) :: p :: ms =>
      strLit k ++ ':' :: stringifyChars v ++ ',' :: stringifyMembers (p :: ms)

end

/-- `JSON.stringify` on our JSON values. -/
def jsonStringify (v : Json) : String := String.mk (stringifyChars v)

/-- JSON whitespace (space, tab, line feed, carriage return). -/
def isWsCh (c : Char) : Bool :=
  c = ' ' || c = Char.ofNat 9 || c = Char.ofNat 10 || c = Char.ofNat 13

/-- Drop leading JSON whitespace. -/
def skipWs : List Char → List Char
  | [] => []
  | c :: cs => if isWsCh c then skipWs cs else c :: cs

/-- Value of a hex digit character, if it is one. -/
def hexVal (c : Char) : Option Nat :=
  if '0' ≤ c ∧ c ≤ '9' then some (c.toNat - 48)
  else if 'a' ≤ c ∧ c ≤ 'f' then some (c.toNat - 87)
  else if 'A' ≤ c ∧ c ≤ 'F' then some (c.toNat - 55)
  else none

/-- The single-character JSON escape codes. -/
def simpleEsc (c : Char) : Option Char :=
  if c = '"' then some '"'
  else if c = '\\' then some '\\'
  else if c = '/' then some '/'
  else if c = 'b' then some (Char.ofNat 8)
  else if c = 'f' then some (Char.ofNat 12)
  else if c = 'n' then some (Char.ofNat 10)
  else if c = 'r' then some (Char.ofNat 13)
  else if c = 't' then some (Char.ofNat 9)
  else none

/-- Prepend a decoded character to a string-body parse result. -/
def consStr (c : Char) : Option (List Char × List Char) → Option (List Char × List Char)
  | some (s, r) => some (c :: s, r)
  | none => none

/-- Parse the body of a JSON string literal (after the opening quote) up to
and including the closing quote, returning the decoded characters and the
remaining input. -/
def parseStrBody : List Char → Option (List Char × List Char)
  | [] => none
  | c :: cs =>
    if c = '"' then some ([], cs)
    else if c = '\\' then
      match cs with
      | 'u' :: h1 :: h2 :: h3 :: h4 :: cs2 =>
        match hexVal h1, hexVal h2, hexVal h3, hexVal h4 with
        | some a, some b, some c', some d =>
            consStr (Char.ofNat (a * 4096 + b * 256 + c' * 16 + d)) (parseStrBody cs2)
        | _, _, _, _ => none
      | e :: cs2 =>
        match simpleEsc e with
        | some d => consStr d (parseStrBody cs2)
        | none => none
      | [] => none
    else if c.toNat < 32 then none
    else consStr c (parseStrBody cs)

/-- Is `c` a decimal digit? -/
def isDigitCh (c : Char) : Bool := '0' ≤ c && c ≤ '9'

/-- Consume leading decimal digits, folding them onto `acc`. -/
def parseDigitsAux (acc : Nat) : List Char → Nat × List Char
  | [] => (acc, [])
  | c :: cs =>
    if isDigitCh c then parseDigitsAux (acc * 10 + (c.toNat - 48)) cs
    else (acc, c :: cs)

/-- Parse a nonempty run of decimal digits. -/
def parseDigits : List Char → Option (Nat × List Char)
  | [] => none
  | c :: cs => if isDigitCh c then some (parseDigitsAux 0 (c :: cs)) else none

/-- Parse a JSON integer (optional minus sign, digits). -/
def parseNum : List Char → Option (Int × List Char)
  | [] => none
  | c :: cs =>
    if c = '-' then
      match parseDigits cs with
      | some (n, rest) => some (-(n : Int), rest)
      | none => none
    else
      match parseDigits (c :: cs) with
      | some (n, rest) => some ((n : Int), rest)
      | none => none

mutual

/-- Fuel-indexed recursive-descent parser for one JSON value.  The fuel
only bounds the nesting recursion; every recursive call consumes at least
one input character, so fuel exceeding the input length never runs out. -/
def parseVal : Nat → List Char → Option (Json × List Char)
  | 0, _ => none
  | _ + 1, [] => none
  | f + 1, c :: cs =>
    if c = lbrace then
      match skipWs cs with
      | c2 :: cs2 =>
        if c2 = rbrace then some (.obj [], cs2)
        else
          match parseMembers f (c2 :: cs2) with
          | some (ms, rest) => some (.obj ms, rest)
          | none => none
      | [] => none
    else if c = '[' then
      match skipWs cs with
      | c2 :: cs2 =>
        if c2 = ']' then some (.arr [], cs2)
        else
          match parseElems f (c2 :: cs2) with
          | some (xs, rest) => some (.arr xs, rest)
          | none => none
      | [] => none
    else if c = '"' then
      match parseStrBody cs with
      | some (s, rest) => some (.str (String.mk s), rest)
      | none => none
    else if c = 'n' then
      match cs with
      | 'u' :: 'l' :: 'l' :: rest => some (.null, rest)
      | _ => none
    else if c = 't' then
      match cs with
      | 'r' :: 'u' :: 'e' :: rest => some (.bool true, rest)
      | _ => none
    else if c = 'f' then
      match cs with
      | 'a' :: 'l' :: 's' :: 'e' :: rest => some (.bool false, rest)
      | _ => none
    else
      match parseNum (c :: cs) with
      | some (n, rest) => some (.num n, rest)
      | none => none

/-- Parse `key : value` members separated by commas, up to and including
the closing brace.  Expects its input to start (after whitespace already
skipped by the caller) at the opening quote of a key. -/
def parseMembers : Nat → List Char → Option (List (String × Json) × List Char)
  | 0, _ => none
  | f + 1, cs =>
    match cs with
    | '"' :: cs1 =>
      match parseStrBody cs1 with
      | some (k, cs2) =>
        match skipWs cs2 with
        | ':' :: cs3 =>
          match parseVal f (skipWs cs3) with
          | some (v, cs4) =>
            match skipWs cs4 with
            | ',' :: cs5 =>
              match parseMembers f (skipWs cs5) with
              | some (ms, rest) => some ((String.mk k, v) :: ms, rest)
              | none => none
            | c :: cs5 =>
              if c = rbrace then some ([(String.mk k, v)], cs5) else none
            | [] => none
          | none => none
        | _ => none
      | none => none
    | _ => none

/-- Parse array elements separated by commas, up to and including the
closing bracket. -/
def parseElems : Nat → List Char → Option (List Json × List Char)
  | 0, _ => none
  | f + 1, cs =>
    match parseVal f (skipWs cs) with
    | some (v, cs2) =>
      match skipWs cs2 with
      | ',' :: cs3 =>
        match parseElems f cs3 with
        | some (xs, rest) => some (v :: xs, rest)
        | none => none
      | ']' :: cs3 => some ([v], cs3)
      | _ => none
    | none => none

end

/-- `JSON.parse`: parse a whole string as one JSON value, allowing
surrounding whitespace; `none` models a thrown `SyntaxError`. -/
def jsonParse (s : String) : Option Json :=
  match parseVal (s.data.length + 5) (skipWs s.data) with
  | some (v, rest) => if skipWs rest = [] then some v else none
  | none => none

/-!
## Component model

Shallow embedding of `UserWallet.tsx` (the `WalletPage` component: the load
`useEffect` and `handleCreateWallet`) and of the alternate `App` sketch's
`handleLogout`.  React state setters become explicit state passing; the
`localStorage['wallet']` slot is `Option String` (`none` = key absent); a
thrown-and-uncaught `JSON.parse` error surfaces as an explicit `crash`
outcome.
-/

/-- The `Wallet` interface of `UserWallet.tsx`. -/
structure Wallet where
  name : String
  address : String
  balance : Int

/-- The JS object a wallet serializes from/to (field order as declared). -/
def walletToJson (w : Wallet) : Json :=
  .obj [("name", .str w.name), ("address", .str w.address), ("balance", .num w.balance)]

/-- JS truthiness of a parsed JSON value, as used by `if (wallet)` and the
render branch. -/
def jsTruthy : Json → Bool
  | .null => false
  | .bool b => b
  | .num n => decide (n ≠ 0)
  | .str s => decide (s ≠ "")
  | .arr _ => true
  | .obj _ => true

/-- Field lookup on a JS object (`undefined` when absent or not an object). -/
def lookupMem (j : Json) (k : String) : Option Json :=
  match j with
  | .obj ms => ms.lookup k
  | _ => none

/-- Outcome of the load `useEffect`:
`const storedWallet = localStorage.getItem('wallet');
 if (storedWallet) setWallet(JSON.parse(storedWallet));`
A falsy slot (absent key or empty string) is skipped; an unparsable slot
makes `JSON.parse` throw with no surrounding try/catch. -/
inductive LoadOutcome where
  | noSession
  | crash
  | session (j : Json)

/-- The load `useEffect` of `WalletPage`, as a function of the slot. -/
def loadEffect : Option String → LoadOutcome
  | none => .noSession
  | some s =>
    if s = "" then .noSession
    else
      match jsonParse s with
      | none => .crash
      | some j => .session j

/-- The `wallet` React state after the load effect (unchanged from `null`
unless a value was parsed and set). -/
def walletAfterLoad (slot : Option String) : Option Json :=
  match loadEffect slot with
  | .session j => some j
  | _ => none

/-- The render branch: the creation form is shown unless `wallet` is truthy. -/
def showsCreationForm (wallet : Option Json) : Bool :=
  match wallet with
  | none => true
  | some j => !jsTruthy j

/-- `response.ok`: status in the 2xx range. -/
def responseOk (status : Nat) : Bool := 200 ≤ status && status < 300

/-- Result of the `fetch('/wallet/create', ...)` call: either the promise
rejects (network error) or a response with a status and a body arrives. -/
inductive FetchOutcome where
  | networkError
  | response (status : Nat) (body : String)

/-- How a `handleCreateWallet` run ended. -/
inductive SubmitTag where
  | notSubmitted
  | failed
  | succeeded
deriving DecidableEq

/-- React state of `WalletPage` together with the durable slot. -/
structure ComponentState where
  wallet : Option Json
  username : String
  loading : Bool
  slot : Option String

/-- Observable result of one `handleCreateWallet` run. -/
structure SubmitResult where
  wallet : Option Json
  loading : Bool
  slot : Option String
  requestSent : Bool
  sentUsername : Option String
  alerted : Option String
  tag : SubmitTag

/-- The catch/finally path: alert a generic failure, reset `loading`. -/
def creationFailure (st : ComponentState) : SubmitResult :=
  { wallet := st.wallet, loading := false, slot := st.slot,
    requestSent := true, sentUsername := some st.username,
    alerted := some "A apărut o problemă la crearea wallet-ului.",
    tag := .failed }

/-- `handleCreateWallet` of `UserWallet.tsx`, line by line: the `!username`
guard alerts and returns; otherwise `setLoading(true)`, one `fetch`; a
non-ok response throws; `response.json()` parses the body (rejecting into
the catch on bad JSON); on success the parsed value is re-serialized into
the slot and set as the wallet; `finally` resets `loading`. -/
def handleCreateWallet (st : ComponentState) (fetch : FetchOutcome) : SubmitResult :=
  if st.username = "" then
    { wallet := st.wallet, loading := st.loading, slot := st.slot,
      requestSent := false, sentUsername := none,
      alerted := some "Introdu un nume de utilizator!",
      tag := .notSubmitted }
  else
    match fetch with
    | .networkError => creationFailure st
    | .response status body =>
      if responseOk status then
        match jsonParse body with
        | some j =>
          { wallet := some j, loading := false,
            slot := some (jsonStringify j),
            requestSent := true, sentUsername := some st.username,
            alerted := none, tag := .succeeded }
        | none => creationFailure st
      else creationFailure st

/-- Did the creation request fail (not sendable, non-2xx, or unparsable
body)? -/
def requestFailed : FetchOutcome → Bool
  | .networkError => true
  | .response status body => !responseOk status || (jsonParse body).isNone

/-- In-memory state of the alternate `App` sketch (src/unnamed/part_000),
together with the durable slot it shares with `UserWallet`. -/
structure AppState where
  username : Option String
  address : Option String
  slot : Option String

/-- `handleLogout` of the alternate `App` sketch: resets the two React
state variables and nothing else. -/
def handleLogout (st : AppState) : AppState :=
  { st with username := none, address := none }

/-- Session Store `save`, as realized by line 49:
`localStorage.setItem('wallet', JSON.stringify(newWallet))`. -/
def saveWallet (w : Wallet) (_slot : Option String) : Option String :=
  some (jsonStringify (walletToJson w))

/-- Does the input start with a decimal digit? -/
def headDigit : List Char → Bool
  | [] => false
  | c :: _ => isDigitCh c

/-- Number of decimal digits `natChars` produces. -/
def numDigits (n : Nat) : Nat :=
  if n < 10 then 1 else numDigits (n / 10) + 1
termination_by n
decreasing_by exact Nat.div_lt_self (by omega) (by omega)

/-!
## Serialize-then-parse round-trip

Step lemmas showing the parser inverts the serializer, needed for the
Session Store round-trip property and the load-after-save behavior.
-/

theorem hexVal_hexDigitChar : ∀ m, m < 16 → hexVal (hexDigitChar m) = some m := by decide

theorem psb_close (X : List Char) : parseStrBody ('"' :: X) = some ([], X) := by
  conv_lhs => unfold parseStrBody
  simp

theorem psb_esc_quote (X : List Char) :
    parseStrBody ('\\' :: '"' :: X) = consStr '"' (parseStrBody X) := by
  conv_lhs => unfold parseStrBody
  simp [simpleEsc]

theorem psb_esc_backslash (X : List Char) :
    parseStrBody ('\\' :: '\\' :: X) = consStr '\\' (parseStrBody X) := by
  conv_lhs => unfold parseStrBody
  simp [simpleEsc]

theorem psb_esc_b (X : List Char) :
    parseStrBody ('\\' :: 'b' :: X) = consStr (Char.ofNat 8) (parseStrBody X) := by
  conv_lhs => unfold parseStrBody
  simp [simpleEsc]

theorem psb_esc_t (X : List Char) :
    parseStrBody ('\\' :: 't' :: X) = consStr (Char.ofNat 9) (parseStrBody X) := by
  conv_lhs => unfold parseStrBody
  simp [simpleEsc]

theorem psb_esc_n (X : List Char) :
    parseStrBody ('\\' :: 'n' :: X) = consStr (Char.ofNat 10) (parseStrBody X) := by
  conv_lhs => unfold parseStrBody
  simp [simpleEsc]

theorem psb_esc_f (X : List Char) :
    parseStrBody ('\\' :: 'f' :: X) = consStr (Char.ofNat 12) (parseStrBody X) := by
  conv_lhs => unfold parseStrBody
  simp [simpleEsc]

theorem psb_esc_r (X : List Char) :
    parseStrBody ('\\' :: 'r' :: X) = consStr (Char.ofNat 13) (parseStrBody X) := by
  conv_lhs => unfold parseStrBody
  simp [simpleEsc]

theorem psb_esc_hex (c : Char) (h : c.toNat < 32) (X : List Char) :
    parseStrBody
        ('\\' :: 'u' :: '0' :: '0' ::
          hexDigitChar (c.toNat / 16) :: hexDigitChar (c.toNat % 16) :: X)
      = consStr c (parseStrBody X) := by
  conv_lhs => unfold parseStrBody
  have e1 : hexVal (hexDigitChar (c.toNat / 16)) = some (c.toNat / 16) :=
    hexVal_hexDigitChar _ (by omega)
  have e2 : hexVal (hexDigitChar (c.toNat % 16)) = some (c.toNat % 16) :=
    hexVal_hexDigitChar _ (by omega)
  have e0 : hexVal '0' = some 0 := by decide
  simp only [e0, e1, e2]
  have harith : c.toNat / 16 * 16 + c.toNat % 16 = c.toNat := by omega
  simp [harith, Char.ofNat_toNat]

theorem psb_plain (c : Char) (h1 : ¬ c = '"') (h2 : ¬ c = '\\') (h3 : ¬ c.toNat < 32)
    (X : List Char) : parseStrBody (c :: X) = consStr c (parseStrBody X) := by
  conv_lhs => unfold parseStrBody
  simp [h1, h2, h3]

theorem parseStrBody_escapeChars (l X : List Char) :
    parseStrBody (escapeChars l ++ '"' :: X) = some (l, X) := by
  induction l with
  | nil => simpa [escapeChars] using psb_close X
  | cons c l ih =>
    rw [escapeChars, List.append_assoc]
    by_cases h1 : c = '"'
    · subst h1
      rw [show escapeChar '"' = ['\\', '"'] by decide]
      simp only [List.cons_append, List.nil_append]
      rw [psb_esc_quote, ih]
      rfl
    by_cases h2 : c = '\\'
    · subst h2
      rw [show escapeChar '\\' = ['\\', '\\'] by decide]
      simp only [List.cons_append, List.nil_append]
      rw [psb_esc_backslash, ih]
      rfl
    by_cases h3 : c = Char.ofNat 8
    · subst h3
      rw [show escapeChar (Char.ofNat 8) = ['\\', 'b'] by decide]
      simp only [List.cons_append, List.nil_append]
      rw [psb_esc_b, ih]
      rfl
    by_cases h4 : c = Char.ofNat 9
    · subst h4
      rw [show escapeChar (Char.ofNat 9) = ['\\', 't'] by decide]
      simp only [List.cons_append, List.nil_append]
      rw [psb_esc_t, ih]
      rfl
    by_cases h5 : c = Char.ofNat 10
    · subst h5
      rw [show escapeChar (Char.ofNat 10) = ['\\', 'n'] by decide]
      simp only [List.cons_append, List.nil_append]
      rw [psb_esc_n, ih]
      rfl
    by_cases h6 : c = Char.ofNat 12
    · subst h6
      rw [show escapeChar (Char.ofNat 12) = ['\\', 'f'] by decide]
      simp only [List.cons_append, List.nil_append]
      rw [psb_esc_f, ih]
      rfl
    by_cases h7 : c = Char.ofNat 13
    · subst h7
      rw [show escapeChar (Char.ofNat 13) = ['\\', 'r'] by decide]
      simp only [List.cons_append, List.nil_append]
      rw [psb_esc_r, ih]
      rfl
    by_cases h8 : c.toNat < 32
    · rw [show escapeChar c
            = ['\\', 'u', '0', '0', hexDigitChar (c.toNat / 16), hexDigitChar (c.toNat % 16)] by
          simp [escapeChar, h1, h2, h3, h4, h5, h6, h7, h8]]
      simp only [List.cons_append, List.nil_append]
      rw [psb_esc_hex c h8, ih]
      rfl
    · rw [show escapeChar c = [c] by simp [escapeChar, h1, h2, h3, h4, h5, h6, h7, h8]]
      simp only [List.cons_append, List.nil_append]
      rw [psb_plain c h1 h2 h8, ih]
      rfl

theorem digitChar_facts :
    ∀ n, n < 10 → isDigitCh (digitChar n) = true ∧ (digitChar n).toNat - 48 = n := by decide

theorem parseDigitsAux_stop (acc : Nat) (cs : List Char) (h : headDigit cs = false) :
    parseDigitsAux acc cs = (acc, cs) := by
  cases cs with
  | nil => rfl
  | cons c cs =>
    simp only [headDigit] at h
    simp [parseDigitsAux, h]

theorem parseDigitsAux_natChars : ∀ n acc cs,
    parseDigitsAux acc (natChars n ++ cs) = parseDigitsAux (acc * 10 ^ numDigits n + n) cs := by
  intro n
  induction n using Nat.strong_induction_on with
  | _ n ih =>
    intro acc cs
    by_cases h : n < 10
    · rw [natChars, numDigits]
      simp only [h, if_pos]
      obtain ⟨hd, hv⟩ := digitChar_facts n h
      simp only [List.cons_append, List.nil_append, parseDigitsAux, hd, if_pos, hv, pow_one]
      rfl
    · rw [natChars, numDigits]
      simp only [h, if_neg, ite_false, List.append_assoc, List.cons_append, List.nil_append]
      rw [ih (n / 10) (Nat.div_lt_self (by omega) (by omega)) acc (digitChar (n % 10) :: cs)]
      obtain ⟨hd, hv⟩ := digitChar_facts (n % 10) (by omega)
      simp only [parseDigitsAux, hd, if_pos, hv]
      have hmod : n / 10 * 10 + n % 10 = n := by omega
      have harith : (acc * 10 ^ numDigits (n / 10) + n / 10) * 10 + n % 10
          = acc * 10 ^ (numDigits (n / 10) + 1) + n := by
        calc (acc * 10 ^ numDigits (n / 10) + n / 10) * 10 + n % 10
            = acc * (10 ^ numDigits (n / 10) * 10) + (n / 10 * 10 + n % 10) := by ring
          _ = acc * 10 ^ (numDigits (n / 10) + 1) + n := by rw [hmod, pow_succ]
      rw [harith]

theorem natChars_cons : ∀ n, ∃ c cs, natChars n = c :: cs ∧ isDigitCh c = true := by
  intro n
  induction n using Nat.strong_induction_on with
  | _ n ih =>
    by_cases h : n < 10
    · refine ⟨digitChar n, [], ?_, (digitChar_facts n h).1⟩
      rw [natChars]
      simp [h]
    · obtain ⟨c, cs, hc, hd⟩ := ih (n / 10) (Nat.div_lt_self (by omega) (by omega))
      refine ⟨c, cs ++ [digitChar (n % 10)], ?_, hd⟩
      rw [natChars]
      simp [h, hc]

theorem parseDigits_natChars (n : Nat) (cs : List Char) (h : headDigit cs = false) :
    parseDigits (natChars n ++ cs) = some (n, cs) := by
  obtain ⟨c, cs', hc, hd⟩ := natChars_cons n
  rw [hc]
  simp only [List.cons_append, parseDigits, hd, if_pos]
  rw [← List.cons_append, ← hc, parseDigitsAux_natChars n 0 cs, parseDigitsAux_stop _ _ h]
  simp

theorem parseNum_intChars (n : Int) (cs : List Char) (h : headDigit cs = false) :
    parseNum (intChars n ++ cs) = some (n, cs) := by
  by_cases hneg : n < 0
  · rw [intChars]
    simp only [hneg, if_pos, List.cons_append]
    have hminus : ('-' : Char) = '-' := rfl
    simp only [parseNum, hminus, if_pos, parseDigits_natChars n.natAbs cs h]
    have : -(n.natAbs : Int) = n := by omega
    rw [this]
  · rw [intChars]
    simp only [hneg, ite_false]
    obtain ⟨c, cs', hc, hd⟩ := natChars_cons n.natAbs
    rw [hc]
    simp only [List.cons_append]
    have hcm : ¬ c = '-' := by
      intro he
      rw [he] at hd
      exact absurd hd (by decide)
    simp only [parseNum, hcm, ite_false]
    rw [← List.cons_append, ← hc, parseDigits_natChars n.natAbs cs h]
    have hco : (n.natAbs : Int) = n := Int.natAbs_of_nonneg (by omega)
    simp [hco]

theorem mk_data (s : String) : String.mk s.data = s := rfl

theorem skipWs_colon (cs : List Char) : skipWs (':' :: cs) = ':' :: cs := rfl

theorem skipWs_comma (cs : List Char) : skipWs (',' :: cs) = ',' :: cs := rfl

theorem skipWs_quote (cs : List Char) : skipWs ('"' :: cs) = '"' :: cs := rfl

theorem skipWs_rbrace (cs : List Char) : skipWs (rbrace :: cs) = rbrace :: cs := rfl

theorem skipWs_lbrace (cs : List Char) : skipWs (lbrace :: cs) = lbrace :: cs := rfl

theorem quote_ne_rbrace : ¬ ('"' : Char) = rbrace := by decide

theorem headDigit_rbrace (X : List Char) : headDigit (rbrace :: X) = false := rfl

theorem parseVal_lbrace (f : Nat) (Y : List Char) :
    parseVal (f + 1) (lbrace :: Y) =
      match skipWs Y with
      | c2 :: cs2 =>
        if c2 = rbrace then some (.obj [], cs2)
        else
          match parseMembers f (c2 :: cs2) with
          | some (ms, rest) => some (.obj ms, rest)
          | none => none
      | [] => none := rfl

theorem parseVal_quote (f : Nat) (Y : List Char) :
    parseVal (f + 1) ('"' :: Y) =
      match parseStrBody Y with
      | some (s, rest) => some (.str (String.mk s), rest)
      | none => none := rfl

theorem parseMembers_quote (f : Nat) (Y : List Char) :
    parseMembers (f + 1) ('"' :: Y) =
      match parseStrBody Y with
      | some (k, cs2) =>
        match skipWs cs2 with
        | ':' :: cs3 =>
          match parseVal f (skipWs cs3) with
          | some (v, cs4) =>
            match skipWs cs4 with
            | ',' :: cs5 =>
              match parseMembers f (skipWs cs5) with
              | some (ms, rest) => some ((String.mk k, v) :: ms, rest)
              | none => none
            | c :: cs5 => if c = rbrace then some ([(String.mk k, v)], cs5) else none
            | [] => none
          | none => none
        | _ => none
      | none => none := rfl

set_option maxHeartbeats 2000000 in
theorem parseVal_other (f : Nat) (c : Char) (cs : List Char)
    (h1 : ¬ c = lbrace) (h2 : ¬ c = '[') (h3 : ¬ c = '"')
    (h4 : ¬ c = 'n') (h5 : ¬ c = 't') (h6 : ¬ c = 'f') :
    parseVal (f + 1) (c :: cs) =
      match parseNum (c :: cs) with
      | some (n, rest) => some (.num n, rest)
      | none => none := by
  simp only [parseVal, h1, h2, h3, h4, h5, h6, ite_false, if_neg]

theorem intChars_cons :
    ∀ n : Int, ∃ c cs, intChars n = c :: cs ∧ (c = '-' ∨ isDigitCh c = true) := by
  intro n
  by_cases hneg : n < 0
  · refine ⟨'-', natChars n.natAbs, ?_, Or.inl rfl⟩
    rw [intChars]
    simp [hneg]
  · obtain ⟨c, cs, hc, hd⟩ := natChars_cons n.natAbs
    refine ⟨c, cs, ?_, Or.inr hd⟩
    rw [intChars]
    simp [hneg, hc]

theorem digit_ne (c K : Char) (hc : isDigitCh c = true) (hK : isDigitCh K = false) :
    ¬ c = K := by
  intro h
  rw [h, hK] at hc
  cases hc

theorem parseVal_intChars (f : Nat) (n : Int) (X : List Char) (h : headDigit X = false) :
    parseVal (f + 1) (intChars n ++ X) = some (.num n, X) := by
  obtain ⟨c, cs, hc, hcd⟩ := intChars_cons n
  have hne : ∀ K : Char, isDigitCh K = false → ¬ ('-' : Char) = K → ¬ c = K := by
    intro K hK hm
    rcases hcd with h' | h'
    · rw [h']; exact hm
    · exact digit_ne c K h' hK
  rw [hc, List.cons_append,
    parseVal_other f c _ (hne lbrace (by decide) (by decide)) (hne '[' (by decide) (by decide))
      (hne '"' (by decide) (by decide)) (hne 'n' (by decide) (by decide))
      (hne 't' (by decide) (by decide)) (hne 'f' (by decide) (by decide)),
    ← List.cons_append, ← hc, parseNum_intChars n X h]

theorem ws_not_digit (c : Char) (h : isDigitCh c = true) : isWsCh c = false := by
  cases hsp : isWsCh c
  · rfl
  · exfalso
    simp only [isWsCh, Bool.or_eq_true, decide_eq_true_eq] at hsp
    rcases hsp with ((h' | h') | h') | h' <;> subst h' <;> exact absurd h (by decide)

theorem skipWs_intChars (n : Int) (Y : List Char) :
    skipWs (intChars n ++ Y) = intChars n ++ Y := by
  obtain ⟨c, cs, hc, hcd⟩ := intChars_cons n
  rw [hc, List.cons_append]
  have hws : isWsCh c = false := by
    rcases hcd with h' | h'
    · rw [h']; decide
    · exact ws_not_digit c h'
  simp [skipWs, hws]

theorem match_rbrace_cons (α : Type) (X : List Char) (fc : List Char → α)
    (fe : Char → List Char → α) (fn : α) :
    (match rbrace :: X with
     | ',' :: cs5 => fc cs5
     | c :: cs5 => fe c cs5
     | [] => fn) = fe rbrace X := by
  rfl

set_option maxHeartbeats 4000000 in
theorem parseVal_wallet (f : Nat) (w : Wallet) (X : List Char) :
    parseVal (f + 1 + 1 + 1 + 1 + 1) (stringifyChars (walletToJson w) ++ X)
      = some (walletToJson w, X) := by
  simp only [walletToJson, stringifyChars, stringifyMembers, strLit, List.append_assoc,
    List.cons_append, List.nil_append]
  rw [parseVal_lbrace]
  simp [skipWs_quote, parseMembers_quote, parseStrBody_escapeChars, mk_data,
    skipWs_colon, skipWs_comma, skipWs_rbrace, skipWs_intChars, parseVal_quote,
    headDigit_rbrace, parseVal_intChars, quote_ne_rbrace, match_rbrace_cons]

theorem parseVal_wallet_nil (f : Nat) (w : Wallet) :
    parseVal (f + 1 + 1 + 1 + 1 + 1) (stringifyChars (walletToJson w))
      = some (walletToJson w, []) := by
  have h := parseVal_wallet f w []
  rwa [List.append_nil] at h

theorem stringifyChars_wallet_head (w : Wallet) :
    ∃ Y, stringifyChars (walletToJson w) = lbrace :: Y :=
  ⟨stringifyMembers [("name", .str w.name), ("address", .str w.address),
      ("balance", .num w.balance)] ++ [rbrace],
    by simp [walletToJson, stringifyChars]⟩

theorem jsonParse_stringify_wallet (w : Wallet) :
    jsonParse (jsonStringify (walletToJson w)) = some (walletToJson w) := by
  obtain ⟨Y, hY⟩ := stringifyChars_wallet_head w
  simp only [jsonParse, jsonStringify,
    show ∀ l : List Char, (String.mk l).data = l from fun _ => rfl]
  rw [hY, skipWs_lbrace, ← hY]
  simp only [show ∀ m : Nat, m + 5 = m + 1 + 1 + 1 + 1 + 1 from fun _ => rfl]
  rw [parseVal_wallet_nil]
  simp [skipWs]

theorem jsonStringify_wallet_ne_empty (w : Wallet) : jsonStringify (walletToJson w) ≠ "" := by
  obtain ⟨Y, hY⟩ := stringifyChars_wallet_head w
  rw [jsonStringify, hY]
  intro h
  have hdata := congrArg String.data h
  simp only [show ∀ l : List Char, (String.mk l).data = l from fun _ => rfl,
    show ("" : String).data = [] from rfl] at hdata
  cases hdata

/-!
## Claim theorems
-/

/-- C1, counterexample: the slot content `"not json"` makes the load effect
crash (uncaught `JSON.parse` exception) instead of returning absent, and a
parsable shape missing `address` is installed as a session instead of being
treated as absent. -/
theorem claim_C1_counterexample :
    loadEffect (some "not json") = LoadOutcome.crash ∧
    LoadOutcome.crash ≠ LoadOutcome.noSession ∧
    loadEffect (some "\x7b\"name\":\"x\"\x7d")
      = LoadOutcome.session (Json.obj [("name", Json.str "x")]) ∧
    LoadOutcome.session (Json.obj [("name", Json.str "x")]) ≠ LoadOutcome.noSession :=
  ⟨rfl, fun h => LoadOutcome.noConfusion h, rfl, fun h => LoadOutcome.noConfusion h⟩

/-- C1, amended: for a nonempty slot value, the load effect crashes when
the content is invalid JSON (the parse failure propagates, there is no
try/catch), and installs the parsed value as the session whenever parsing
succeeds, with no shape validation at all. -/
theorem claim_C1_load_behavior (s : String) (h : ¬ s = "") :
    (jsonParse s = none → loadEffect (some s) = LoadOutcome.crash) ∧
    (∀ j, jsonParse s = some j → loadEffect (some s) = LoadOutcome.session j) := by
  constructor
  · intro hp
    simp [loadEffect, h, hp]
  · intro j hp
    simp [loadEffect, h, hp]

/-- C1, witness: the amended statement applied to the concrete slot content
`"nope"`. -/
theorem claim_C1_witness :
    (¬ ("nope" : String) = "") ∧
    ((jsonParse "nope" = none → loadEffect (some "nope") = LoadOutcome.crash) ∧
      (∀ j, jsonParse "nope" = some j → loadEffect (some "nope") = LoadOutcome.session j)) :=
  ⟨by decide, claim_C1_load_behavior "nope" (by decide)⟩

/-- C2, counterexample: a 2xx response whose JSON body is `\x7b\x7d` (no
`address` field) is treated as a success: the controller stores it and
writes the slot, instead of transitioning to CreationFailed with no write. -/
theorem claim_C2_counterexample :
    (handleCreateWallet ⟨none, "bob", false, none⟩ (FetchOutcome.response 200 "\x7b\x7d")).tag
        = SubmitTag.succeeded ∧
    (handleCreateWallet ⟨none, "bob", false, none⟩ (FetchOutcome.response 200 "\x7b\x7d")).wallet
        = some (Json.obj []) ∧
    (handleCreateWallet ⟨none, "bob", false, none⟩ (FetchOutcome.response 200 "\x7b\x7d")).slot
        ≠ none :=
  ⟨rfl, rfl, by
    rw [show (handleCreateWallet ⟨none, "bob", false, none⟩
        (FetchOutcome.response 200 "\x7b\x7d")).slot = some (jsonStringify (Json.obj [])) from rfl]
    exact fun h => Option.noConfusion h⟩

/-- C2, amended: a 2xx response with any parsable JSON body — including one
lacking `address` — is treated as success: the parsed body becomes the
wallet and is written to the durable slot; only a non-2xx status or an
unparsable body yields the failure outcome. -/
theorem claim_C2_success_stores_any_body (st : ComponentState) (status : Nat) (body : String)
    (j : Json) (h1 : ¬ st.username = "") (h2 : responseOk status = true)
    (h3 : jsonParse body = some j) :
    (handleCreateWallet st (FetchOutcome.response status body)).tag = SubmitTag.succeeded ∧
    (handleCreateWallet st (FetchOutcome.response status body)).wallet = some j ∧
    (handleCreateWallet st (FetchOutcome.response status body)).slot
        = some (jsonStringify j) := by
  simp [handleCreateWallet, h1, h2, h3]

/-- C2, witness: the amended statement applied to a 2xx response with the
empty-object body. -/
theorem claim_C2_witness :
    (¬ ("bob" : String) = "") ∧ responseOk 200 = true ∧
    jsonParse "\x7b\x7d" = some (Json.obj []) ∧
    ((handleCreateWallet ⟨none, "bob", false, none⟩ (FetchOutcome.response 200 "\x7b\x7d")).tag
        = SubmitTag.succeeded ∧
      (handleCreateWallet ⟨none, "bob", false, none⟩
          (FetchOutcome.response 200 "\x7b\x7d")).wallet = some (Json.obj []) ∧
      (handleCreateWallet ⟨none, "bob", false, none⟩
          (FetchOutcome.response 200 "\x7b\x7d")).slot
        = some (jsonStringify (Json.obj []))) :=
  ⟨by decide, by decide, rfl,
    claim_C2_success_stores_any_body ⟨none, "bob", false, none⟩ 200 "\x7b\x7d" (Json.obj [])
      (by decide) (by decide) rfl⟩

/-- C3, counterexample: a 2xx body containing only `address` is stored as
the wallet with no `name` and no `balance` member — the claimed fallback to
the submitted username and zero balance does not happen. -/
theorem claim_C3_counterexample :
    (handleCreateWallet ⟨none, "alice", false, none⟩
        (FetchOutcome.response 200 "\x7b\"address\":\"a\"\x7d")).wallet
      = some (Json.obj [("address", Json.str "a")]) ∧
    lookupMem (Json.obj [("address", Json.str "a")]) "name" = none ∧
    lookupMem (Json.obj [("address", Json.str "a")]) "balance" = none :=
  ⟨rfl, rfl, rfl⟩

/-- C3, amended: the controller applies no fallback: the session it stores
and displays is exactly the parsed response body, so a body omitting `name`
or `balance` yields a stored session that also omits them. -/
theorem claim_C3_no_fallback (st : ComponentState) (status : Nat) (body : String) (j : Json)
    (h1 : ¬ st.username = "") (h2 : responseOk status = true) (h3 : jsonParse body = some j)
    (h4 : lookupMem j "name" = none) (h5 : lookupMem j "balance" = none) :
    ∃ jw, (handleCreateWallet st (FetchOutcome.response status body)).wallet = some jw ∧
      lookupMem jw "name" = none ∧ lookupMem jw "balance" = none :=
  ⟨j, by simp [handleCreateWallet, h1, h2, h3], h4, h5⟩

/-- C3, witness: the amended statement applied to the address-only body. -/
theorem claim_C3_witness :
    lookupMem (Json.obj [("address", Json.str "a")]) "name" = none ∧
    lookupMem (Json.obj [("address", Json.str "a")]) "balance" = none ∧
    ∃ jw, (handleCreateWallet ⟨none, "alice", false, none⟩
        (FetchOutcome.response 200 "\x7b\"address\":\"a\"\x7d")).wallet = some jw ∧
      lookupMem jw "name" = none ∧ lookupMem jw "balance" = none :=
  ⟨rfl, rfl,
    claim_C3_no_fallback ⟨none, "alice", false, none⟩ 200 "\x7b\"address\":\"a\"\x7d"
      (Json.obj [("address", Json.str "a")]) (by decide) (by decide) rfl rfl rfl⟩

/-- C4, counterexample: logging out from an active state leaves the durable
slot exactly as it was instead of clearing it. -/
theorem claim_C4_counterexample :
    (handleLogout ⟨some "alice", some "bc1q", some "stored-session"⟩).username = none ∧
    (handleLogout ⟨some "alice", some "bc1q", some "stored-session"⟩).slot
        = some "stored-session" ∧
    some "stored-session" ≠ (none : Option String) :=
  ⟨rfl, rfl, fun h => Option.noConfusion h⟩

/-- C4, amended: logout resets the in-memory username and address (the UI
returns to the creation view) but never touches the durable slot; no clear
operation is invoked. -/
theorem claim_C4_logout_keeps_slot (st : AppState) :
    (handleLogout st).username = none ∧ (handleLogout st).address = none ∧
    (handleLogout st).slot = st.slot :=
  ⟨rfl, rfl, rfl⟩

/-- C5: whenever the creation request fails — the fetch promise rejects,
the response status is not 2xx, or the response body does not parse — the
run ends in the failure outcome and both the durable slot and the in-memory
wallet are left exactly as they were (no store write on the error path). -/
theorem claim_C5_failure_leaves_store (st : ComponentState) (o : FetchOutcome)
    (h1 : ¬ st.username = "") (h2 : requestFailed o = true) :
    (handleCreateWallet st o).tag = SubmitTag.failed ∧
    (handleCreateWallet st o).slot = st.slot ∧
    (handleCreateWallet st o).wallet = st.wallet := by
  cases o with
  | networkError => simp [handleCreateWallet, h1, creationFailure]
  | response status body =>
    simp only [requestFailed, Bool.or_eq_true, Bool.not_eq_true',
      Option.isNone_iff_eq_none] at h2
    by_cases hok : responseOk status = true
    · rcases h2 with h2 | h2
      · rw [hok] at h2
        cases h2
      · simp [handleCreateWallet, h1, hok, h2, creationFailure]
    · simp [handleCreateWallet, h1, hok, creationFailure]

/-- C5, witness: a submit with name `"bob"` meeting an HTTP 500 response
fails and leaves the (absent) slot untouched. -/
theorem claim_C5_witness :
    (¬ ("bob" : String) = "") ∧
    requestFailed (FetchOutcome.response 500 "ignored") = true ∧
    ((handleCreateWallet ⟨none, "bob", false, none⟩ (FetchOutcome.response 500 "ignored")).tag
        = SubmitTag.failed ∧
      (handleCreateWallet ⟨none, "bob", false, none⟩
          (FetchOutcome.response 500 "ignored")).slot = none ∧
      (handleCreateWallet ⟨none, "bob", false, none⟩
          (FetchOutcome.response 500 "ignored")).wallet = none) :=
  ⟨by decide, by decide,
    claim_C5_failure_leaves_store ⟨none, "bob", false, none⟩
      (FetchOutcome.response 500 "ignored") (by decide) (by decide)⟩

/-- C6: submitting with an empty username issues no network request,
surfaces the local validation alert, and leaves the wallet, the loading
flag and the durable slot unchanged. -/
theorem claim_C6_empty_name_no_request (st : ComponentState) (o : FetchOutcome)
    (h : st.username = "") :
    (handleCreateWallet st o).requestSent = false ∧
    (handleCreateWallet st o).alerted = some "Introdu un nume de utilizator!" ∧
    (handleCreateWallet st o).tag = SubmitTag.notSubmitted ∧
    (handleCreateWallet st o).wallet = st.wallet ∧
    (handleCreateWallet st o).loading = st.loading ∧
    (handleCreateWallet st o).slot = st.slot := by
  simp [handleCreateWallet, h]

/-- C6, witness: the empty-name guard applied to the initial state. -/
theorem claim_C6_witness :
    (("" : String) = "") ∧
    ((handleCreateWallet ⟨none, "", false, none⟩ FetchOutcome.networkError).requestSent = false ∧
      (handleCreateWallet ⟨none, "", false, none⟩ FetchOutcome.networkError).alerted
          = some "Introdu un nume de utilizator!" ∧
      (handleCreateWallet ⟨none, "", false, none⟩ FetchOutcome.networkError).tag
          = SubmitTag.notSubmitted ∧
      (handleCreateWallet ⟨none, "", false, none⟩ FetchOutcome.networkError).wallet = none ∧
      (handleCreateWallet ⟨none, "", false, none⟩ FetchOutcome.networkError).loading = false ∧
      (handleCreateWallet ⟨none, "", false, none⟩ FetchOutcome.networkError).slot = none) :=
  ⟨rfl, claim_C6_empty_name_no_request ⟨none, "", false, none⟩ FetchOutcome.networkError rfl⟩

/-- C7: saving a valid wallet session to the durable slot and then running
the load effect yields exactly that session back — the
serialize-then-parse round trip through the slot is the identity. -/
theorem claim_C7_roundtrip (w : Wallet) (slot0 : Option String)
    (h1 : ¬ w.name = "") (h2 : ¬ w.address = "") :
    loadEffect (saveWallet w slot0) = LoadOutcome.session (walletToJson w) := by
  simp [saveWallet, loadEffect, jsonStringify_wallet_ne_empty w, jsonParse_stringify_wallet w]

/-- C7, witness: the round trip for the concrete session
`name = "alice"`, `address = "bc1q"`, `balance = 0`. -/
theorem claim_C7_witness :
    (¬ ((⟨"alice", "bc1q", 0⟩ : Wallet).name = "")) ∧
    (¬ ((⟨"alice", "bc1q", 0⟩ : Wallet).address = "")) ∧
    loadEffect (saveWallet ⟨"alice", "bc1q", 0⟩ none)
      = LoadOutcome.session (walletToJson ⟨"alice", "bc1q", 0⟩) :=
  ⟨by decide, by decide,
    claim_C7_roundtrip ⟨"alice", "bc1q", 0⟩ none (by decide) (by decide)⟩

/-- C8: the submit guard rejects only the empty string, so a whitespace-only
username is accepted as non-empty and a network request carrying exactly
that username is issued. -/
theorem claim_C8_whitespace_name (st : ComponentState) (o : FetchOutcome)
    (hws : ∀ c ∈ st.username.data, c = ' ') (h : ¬ st.username = "") :
    (handleCreateWallet st o).requestSent = true ∧
    (handleCreateWallet st o).sentUsername = some st.username := by
  cases o with
  | networkError => simp [handleCreateWallet, h, creationFailure]
  | response status body =>
    by_cases hok : responseOk status = true
    · cases hp : jsonParse body with
      | none => simp [handleCreateWallet, h, hok, hp, creationFailure]
      | some j => simp [handleCreateWallet, h, hok, hp]
    · simp [handleCreateWallet, h, hok, creationFailure]

/-- C8, witness: the single-space username `" "` passes the guard and is
sent. -/
theorem claim_C8_witness :
    (∀ c ∈ (⟨none, " ", false, none⟩ : ComponentState).username.data, c = ' ') ∧
    (¬ (⟨none, " ", false, none⟩ : ComponentState).username = "") ∧
    ((handleCreateWallet ⟨none, " ", false, none⟩ FetchOutcome.networkError).requestSent = true ∧
      (handleCreateWallet ⟨none, " ", false, none⟩ FetchOutcome.networkError).sentUsername
        = some " ") :=
  ⟨by decide, by decide,
    claim_C8_whitespace_name ⟨none, " ", false, none⟩ FetchOutcome.networkError
      (by decide) (by decide)⟩

/-- C9: for every outcome of a non-empty submit — success, non-2xx,
network error, or body parse failure — the `finally` block resets the
loading flag to false, so the controller never stays stuck in-flight. -/
theorem claim_C9_loading_reset (st : ComponentState) (o : FetchOutcome)
    (h : ¬ st.username = "") :
    (handleCreateWallet st o).loading = false := by
  cases o with
  | networkError => simp [handleCreateWallet, h, creationFailure]
  | response status body =>
    by_cases hok : responseOk status = true
    · cases hp : jsonParse body with
      | none => simp [handleCreateWallet, h, hok, hp, creationFailure]
      | some j => simp [handleCreateWallet, h, hok, hp]
    · simp [handleCreateWallet, h, hok, creationFailure]

/-- C9, witness: a submit that starts with the loading flag set still ends
with it reset after a successful response. -/
theorem claim_C9_witness :
    (¬ ("carol" : String) = "") ∧
    (handleCreateWallet ⟨none, "carol", true, none⟩
        (FetchOutcome.response 200 "\x7b\x7d")).loading = false :=
  ⟨by decide,
    claim_C9_loading_reset ⟨none, "carol", true, none⟩
      (FetchOutcome.response 200 "\x7b\x7d") (by decide)⟩

/-- C10: an empty string in the durable slot is falsy, so the load effect
skips `JSON.parse` entirely (no crash, no session) and the creation form is
rendered. -/
theorem claim_C10_empty_slot_skips_parse :
    loadEffect (some "") = LoadOutcome.noSession ∧
    walletAfterLoad (some "") = none ∧
    showsCreationForm (walletAfterLoad (some "")) = true :=
  ⟨rfl, rfl, rfl⟩
